import Mathlib

/-!
Verification development for the KRAVEN deployment-alert pipeline.

The TypeScript source is shallowly embedded:
- JSON-like metadata records become the mutual inductive types `JVal`
  and `JFields` (JS arrays behave as objects with index keys for the
  property accesses the code performs, so they are folded into
  `JVal.obj`; numbers/booleans/undefined are folded into `JVal.other`,
  and null into `JVal.nullv`, since the code only distinguishes string
  values, object values and nullish/falsy values).
- JS strings are Lean `String`; `toLowerCase`, `trim`, `slice(-40)`
  and the one-shot `replace` of a leading at-sign are modelled by the
  explicit helpers below, restricted to the ASCII alphabet the data
  uses.
- Network calls are modelled as oracle parameters: a retried fetch
  receives the list of per-attempt outcomes of its backing HTTP call,
  and time spent sleeping between attempts is returned explicitly.
- The event handlers of src/chain/listener.ts become pure functions
  from (store state, fetch oracles, raw log) to a `RunResult` that
  records the alerts sent, the store writes performed, the wallet
  lookups attempted, and the retry accounting of the metadata fetch.
-/

namespace Kraven

/-- One lowercase mapping pair per ASCII uppercase letter, keyed by code
point.  Models what the JS `toLowerCase` method does on the ASCII
range, which is the alphabet all handles and addresses in this code
use. -/
def lowerTable : List (Nat × Char) :=
  [(65, 'a'), (66, 'b'), (67, 'c'), (68, 'd'), (69, 'e'), (70, 'f'),
   (71, 'g'), (72, 'h'), (73, 'i'), (74, 'j'), (75, 'k'), (76, 'l'),
   (77, 'm'), (78, 'n'), (79, 'o'), (80, 'p'), (81, 'q'), (82, 'r'),
   (83, 's'), (84, 't'), (85, 'u'), (86, 'v'), (87, 'w'), (88, 'x'),
   (89, 'y'), (90, 'z')]

/-- ASCII lowercasing of a single character. -/
def lowerChar (c : Char) : Char :=
  match lowerTable.find? (fun p => p.1 == c.toNat) with
  | some p => p.2
  | none => c

/-- Model of the JS `toLowerCase` method for ASCII strings. -/
def jsToLower (s : String) : String :=
  String.mk (s.data.map lowerChar)

/-- JS whitespace characters relevant to `trim` on ASCII data. -/
def isJsWsChar (c : Char) : Bool :=
  c == ' ' || c == '\t' || c == '\n' || c == '\r' ||
  c.toNat == 11 || c.toNat == 12

/-- Model of the JS `trim` method: strips leading and trailing
whitespace. -/
def jsTrim (s : String) : String :=
  String.mk (((s.data.dropWhile isJsWsChar).reverse.dropWhile isJsWsChar).reverse)

/-- Model of replacing the regex anchored-at-sign pattern by the empty
string: removes one leading at-sign only. -/
def stripLeadingAt (s : String) : String :=
  match s.data with
  | c :: rest => if c == '@' then String.mk rest else s
  | [] => s

/-- Model of the JS slice with argument -40: the last `n` characters of
the string (the whole string when it is shorter). -/
def strTakeRight (s : String) (n : Nat) : String :=
  String.mk ((s.data.reverse.take n).reverse)

mutual

/-- JSON-like value as the code observes it through `typeof` checks:
strings, objects (including arrays), null, and everything else. -/
inductive JVal where
  | str (s : String) : JVal
  | obj (fields : JFields) : JVal
  | nullv : JVal
  | other : JVal

/-- Field list of a JSON-like object, in insertion order. -/
inductive JFields where
  | nil : JFields
  | cons (k : String) (v : JVal) (rest : JFields) : JFields

end

/-- Property lookup `record[field]` on an object field list (JS object
keys are unique; the first occurrence wins). -/
def jget : JFields → String → Option JVal
  | JFields.nil, _ => none
  | JFields.cons k v rest, key => if k == key then some v else jget rest key

/-- The fixed priority field names of `extractXHandle`. -/
def priorityFields : List String :=
  ["x_handle", "xHandle", "twitter_handle", "twitterHandle",
   "requestor_handle", "requestorHandle", "username", "handle"]

/-- The fixed context field names of `extractXHandle`. -/
def contextFields : List String :=
  ["social_context", "requestor", "context", "metadata", "creator"]

/-- Normalization applied to a priority-field string value: skip empty
values, strip one leading at-sign, trim, and lowercase; yields none when
the normalized value is empty (the loop then moves on). -/
def normalizeHandleField (s : String) : Option String :=
  if s = "" then none
  else
    let val := jsTrim (stripLeadingAt s)
    if val = "" then none else some (jsToLower val)

/-- Step 1 of `extractXHandle`: first priority field holding a
non-empty string whose normalized form is non-empty. -/
def checkPriority (fields : JFields) : Option String :=
  priorityFields.findSome? (fun f =>
    match jget fields f with
    | some (JVal.str s) => normalizeHandleField s
    | _ => none)

/-- Characters admitted by the URL regex capture class: ASCII letters,
digits and underscore. -/
def isHandleChar (c : Char) : Bool :=
  (65 ≤ c.toNat && c.toNat ≤ 90) || (97 ≤ c.toNat && c.toNat ≤ 122) ||
  (48 ≤ c.toNat && c.toNat ≤ 57) || c.toNat == 95

/-- Lowercase form of the capture class: lowercase letters, digits and
underscore. -/
def isLowerHandleChar (c : Char) : Bool :=
  (97 ≤ c.toNat && c.toNat ≤ 122) ||
  (48 ≤ c.toNat && c.toNat ≤ 57) || c.toNat == 95

/-- Case-insensitive literal prefix match (the pattern is given in
lowercase); returns the rest of the input after the pattern. -/
def matchCI : List Char → List Char → Option (List Char)
  | [], s => some s
  | _ :: _, [] => none
  | p :: ps, c :: cs => if lowerChar c == p then matchCI ps cs else none

/-- One anchored attempt of the URL regex (twitter.com or x.com, a
slash, then 1 to 50 handle characters, captured greedily) at the head
of the input. -/
def urlMatchAt (s : List Char) : Option (List Char) :=
  match matchCI "twitter.com/".data s with
  | some rest =>
    let cap := (rest.takeWhile isHandleChar).take 50
    if cap.isEmpty then none else some cap
  | none =>
    match matchCI "x.com/".data s with
    | some rest =>
      let cap := (rest.takeWhile isHandleChar).take 50
      if cap.isEmpty then none else some cap
    | none => none

/-- Leftmost match of the URL regex: the JS match result (capture group
1) for the pattern used by the code. -/
def scanUrl : List Char → Option (List Char)
  | [] => none
  | c :: cs =>
    match urlMatchAt (c :: cs) with
    | some cap => some cap
    | none => scanUrl cs

/-- Per-field step 3 check: a string field whose first embedded URL
capture, lowercased, is not the reserved literal "i".  When the first
capture is "i" the code does not rescan the rest of the string; it
moves on to the next field. -/
def urlHit (s : String) : Option String :=
  match scanUrl s.data with
  | some cap =>
    let low := String.mk (cap.map lowerChar)
    if low = "i" then none else some low
  | none => none

/-- Step 3 of `extractXHandle`: scan every string-valued field, in
object order, for an embedded twitter.com or x.com profile URL. -/
def urlStep : JFields → Option String
  | JFields.nil => none
  | JFields.cons _ (JVal.str s) rest =>
    match urlHit s with
    | some h => some h
    | none => urlStep rest
  | JFields.cons _ _ rest => urlStep rest

mutual

/-- Size measure for fueled recursion over JSON values. -/
def jsize : JVal → Nat
  | JVal.obj fields => 1 + jsizeF fields
  | _ => 1

/-- Size measure for field lists. -/
def jsizeF : JFields → Nat
  | JFields.nil => 0
  | JFields.cons _ v rest => 1 + jsize v + jsizeF rest

end

/-- Recursive core of `extractXHandle` (src/api/clanker.ts).  The JS
function recurses through acyclic JSON data; the fuel argument is an
upper bound on the recursion depth and never runs out when the call
starts with fuel larger than the size of the value, so the top-level
wrapper below has exactly the semantics of the source.  The
`findSome?` over `contextFields` is the loop over the context field
names: each truthy object-valued context field is recursed into with
the whole extraction. -/
def extractAux : Nat → JVal → Option String
  | 0, _ => none
  | fuel + 1, JVal.obj fields =>
    (match checkPriority fields with
     | some h => some h
     | none =>
       match contextFields.findSome? (fun f =>
           match jget fields f with
           | some (JVal.obj nested) => extractAux fuel (JVal.obj nested)
           | _ => none) with
       | some h => some h
       | none => urlStep fields)
  | _ + 1, _ => none

/-- Step 2 of `extractXHandle` as the code performs it: the loop over
context field names, recursing the whole extraction into each truthy
object-valued context field. -/
def ctxStep (fuel : Nat) (fields : JFields) : Option String :=
  contextFields.findSome? (fun f =>
    match jget fields f with
    | some (JVal.obj nested) => extractAux fuel (JVal.obj nested)
    | _ => none)

/-- `extractXHandle` from src/api/clanker.ts: find the most plausible
X handle in an arbitrary nested metadata record. -/
def extractXHandle (v : JVal) : Option String :=
  extractAux (jsize v + 1) v

theorem extractAux_succ_obj (fuel : Nat) (fields : JFields) :
    extractAux (fuel + 1) (JVal.obj fields) =
      (match checkPriority fields with
       | some h => some h
       | none =>
         match ctxStep fuel fields with
         | some h => some h
         | none => urlStep fields) := rfl

/-- Reference definition following the words of the spec and the claim
for the amended reading of the extraction order: step 1 is the
priority-field pass, step 2 recurses the full extraction into each
object-valued context field depth-first, step 3 is the URL scan of the
string-valued fields, and the steps are composed in that order. -/
def extractRefAux : Nat → JVal → Option String
  | 0, _ => none
  | fuel + 1, JVal.obj fields =>
    (priorityFields.findSome? (fun f =>
      (jget fields f).bind (fun w =>
        match w with
        | JVal.str s => normalizeHandleField s
        | _ => none))) <|>
    (contextFields.findSome? (fun f =>
      (jget fields f).bind (fun w =>
        match w with
        | JVal.obj nested => extractRefAux fuel (JVal.obj nested)
        | _ => none))) <|>
    urlStep fields
  | _ + 1, _ => none

/-- Top-level amended reference extraction. -/
def extractRef (v : JVal) : Option String :=
  extractRefAux (jsize v + 1) v

/-- Reference definition following the claim as literally stated:
inside context fields only the priority-field check (and deeper
context recursion) is repeated, never the URL scan. -/
def prioCtxAux : Nat → JVal → Option String
  | 0, _ => none
  | fuel + 1, JVal.obj fields =>
    (checkPriority fields) <|>
    (contextFields.findSome? (fun f =>
      match jget fields f with
      | some (JVal.obj nested) => prioCtxAux fuel (JVal.obj nested)
      | _ => none))
  | _ + 1, _ => none

/-- Top-level extraction as the claim literally describes it: priority
and context passes without any nested URL scanning, then a URL scan of
the top-level string fields only. -/
def extractClaimRef (v : JVal) : Option String :=
  (prioCtxAux (jsize v + 1) v) <|>
  (match v with
   | JVal.obj fields => urlStep fields
   | _ => none)

/-- The fields checked first by `extractPlatform`. -/
def platformCheckFields : List String :=
  ["interface", "platform", "source", "type", "cast_hash"]

/-- Literal prefix match on character lists. -/
def headMatches : List Char → List Char → Bool
  | [], _ => true
  | _ :: _, [] => false
  | p :: ps, c :: cs => p == c && headMatches ps cs

/-- Substring occurrence on character lists. -/
def hasSubList (pat : List Char) : List Char → Bool
  | [] => pat.isEmpty
  | c :: cs => headMatches pat (c :: cs) || hasSubList pat cs

/-- Model of the JS `includes` method. -/
def strIncludes (s pat : String) : Bool :=
  hasSubList pat.data s.data

/-- Does any string-valued field of the object contain "bankr" after
lowercasing? -/
def anyStrFieldBankr : JFields → Bool
  | JFields.nil => false
  | JFields.cons _ (JVal.str s) rest =>
    strIncludes (jsToLower s) "bankr" || anyStrFieldBankr rest
  | JFields.cons _ _ rest => anyStrFieldBankr rest

/-- `extractPlatform` from src/api/clanker.ts: decide between the
"via Bankr" and "via Clanker" labels. -/
def extractPlatform (v : JVal) : String :=
  let fields := match v with
    | JVal.obj fs => fs
    | _ => JFields.nil
  if platformCheckFields.any (fun f =>
      match jget fields f with
      | some (JVal.str s) => strIncludes (jsToLower s) "bankr"
      | _ => false) then "via Bankr"
  else
    match jget fields "social_context" with
    | some (JVal.obj sc) =>
      if anyStrFieldBankr sc then "via Bankr" else "via Clanker"
    | _ => "via Clanker"

/-- Property lookup on a value that may not be an object. -/
def jgetV (v : JVal) (k : String) : Option JVal :=
  match v with
  | JVal.obj fs => jget fs k
  | _ => none

/-- Normalized Clanker token record (interface ClankerToken of
src/api/clanker.ts). -/
structure ClankerToken where
  name : String
  symbol : String
  contractAddress : String
  xHandle : Option String
  platform : String
  txHash : String
deriving DecidableEq

/-- String field with a nullish-coalescing default.  Nullish, absent or
non-string values fall back to the default (the JS cast keeps a
non-string non-nullish value, which this JSON model folds into the
default; no claim depends on that corner). -/
def jgetStrD (v : JVal) (k : String) (dflt : String) : String :=
  match jgetV v k with
  | some (JVal.str s) => s
  | _ => dflt

/-- Parsing of a successful Clanker API payload into a ClankerToken,
as done on the success path of `fetchClankerToken`: unwrap an optional
token envelope, default name and symbol, take tx_hash then txHash then
the empty string, and run handle and platform extraction. -/
def parseClankerToken (contractAddress : String) (d : JVal) : ClankerToken :=
  let tokenData := match jgetV d "token" with
    | some w =>
      match w with
      | JVal.nullv => d
      | _ => w
    | none => d
  { name := jgetStrD tokenData "name" "Unknown"
    symbol := jgetStrD tokenData "symbol" "UNKNOWN"
    contractAddress := contractAddress
    xHandle := extractXHandle tokenData
    platform := extractPlatform tokenData
    txHash := jgetStrD tokenData "tx_hash" (jgetStrD tokenData "txHash" "") }

/-- Outcome of one backing HTTP attempt of a retried metadata fetch:
a transport error or thrown exception, an empty or absent payload, or
a usable payload. -/
inductive FetchOutcome where
  | err : FetchOutcome
  | empty : FetchOutcome
  | ok (data : JVal) : FetchOutcome

/-- Result of a whole retried fetch, with explicit accounting of the
backing-call attempts made and the total time slept between them. -/
structure FetchRun where
  result : Option ClankerToken
  sleepMs : Nat
  attempts : Nat
deriving DecidableEq

/-- Retry budget of every metadata resolver (MAX_RETRIES). -/
def MAX_RETRIES : Nat := 3

/-- Inter-attempt delay of every metadata resolver, in milliseconds
(RETRY_DELAY_MS). -/
def RETRY_DELAY_MS : Nat := 2000

/-- The attempt loop of `fetchClankerToken` (src/api/clanker.ts): on a
usable payload return the parsed token; on an error or empty payload
sleep RETRY_DELAY_MS and retry unless this was the last attempt, in
which case return null. -/
def clankerFetchLoop (contractAddress : String) : Nat → List FetchOutcome → FetchRun
  | 0, _ => { result := none, sleepMs := 0, attempts := 0 }
  | remaining + 1, outs =>
    match outs.headD FetchOutcome.err with
    | FetchOutcome.ok d =>
      { result := some (parseClankerToken contractAddress d), sleepMs := 0, attempts := 1 }
    | _ =>
      if remaining = 0 then { result := none, sleepMs := 0, attempts := 1 }
      else
        let rest := clankerFetchLoop contractAddress remaining outs.tail
        { result := rest.result
          sleepMs := rest.sleepMs + RETRY_DELAY_MS
          attempts := rest.attempts + 1 }

/-- `fetchClankerToken`, driven by the per-attempt outcomes of its
backing HTTP call. -/
def fetchClankerToken (contractAddress : String) (outs : List FetchOutcome) : FetchRun :=
  clankerFetchLoop contractAddress MAX_RETRIES outs

/-- One row of the watched_wallets table. -/
structure WalletRow where
  handle : String
  wallet : String
  source : String
deriving DecidableEq

/-- The persisted Store state the pipeline reads and writes:
watched_accounts handles (stored lowercase) and watched_wallets
rows. -/
structure Store where
  watched : List String
  wallets : List WalletRow
deriving DecidableEq

/-- `isHandleWatched` from src/db.ts: lowercase the handle and look it
up among the watched accounts. -/
def isHandleWatched (st : Store) (xHandle : String) : Bool :=
  st.watched.contains (jsToLower xHandle)

/-- `getHandleByWallet` from src/db.ts: lowercase the address and
return the handle of the matching wallet row (the single-row read is
modelled as first match). -/
def getHandleByWallet (st : Store) (walletAddress : String) : Option String :=
  (st.wallets.find? (fun r => r.wallet == jsToLower walletAddress)).map (fun r => r.handle)

/-- `saveWalletMapping` from src/db.ts: lowercase handle and address
and upsert on the (x_handle, wallet_address) conflict key. -/
def saveWalletMapping (st : Store) (xHandle walletAddress source : String) : Store :=
  let hl := jsToLower xHandle
  let al := jsToLower walletAddress
  if st.wallets.any (fun r => r.handle == hl && r.wallet == al) then
    { st with wallets := st.wallets.map (fun r =>
        if r.handle == hl && r.wallet == al then
          { handle := hl, wallet := al, source := source }
        else r) }
  else
    { st with wallets := st.wallets ++ [{ handle := hl, wallet := al, source := source }] }

/-- Which code branch emitted an alert: the PATH A wallet-cache fast
path or the PATH B indexer path.  This is the `source` field of the
ResolvedDeployment artifact of the spec. -/
inductive AlertSource where
  | walletCache : AlertSource
  | indexer : AlertSource
deriving DecidableEq

/-- One `sendTokenAlert` call as the handlers assemble it.  Each alert
also implies one alert_history insert performed inside
`sendTokenAlert`. -/
structure Alert where
  name : String
  symbol : String
  contractAddress : String
  xHandle : String
  platform : String
  txHash : String
  clankerUrl : Option String
  source : AlertSource
deriving DecidableEq

/-- One `saveWalletMapping` call with its raw arguments. -/
structure WalletWrite where
  handle : String
  wallet : String
  source : String
deriving DecidableEq

/-- Everything observable about one handler run: the final store, the
alerts sent (each implying an alert_history insert), the wallet
mapping upserts performed, the wallet-cache lookups attempted, and the
retry accounting of the Clanker metadata fetch. -/
structure RunResult where
  store : Store
  alerts : List Alert := []
  walletWrites : List WalletWrite := []
  walletLookups : List String := []
  fetchSleepMs : Nat := 0
  fetchAttempts : Nat := 0
deriving DecidableEq

/-- A raw chain log as the handlers see it. -/
structure ChainLog where
  topics : List String
  transactionHash : String

/-- The deployer address computed by `handleClankerTokenCreatedLog`
(line 245 of the merged listener): JS evaluates the plus of "0x" and
an undefined optional-chaining result by stringifying undefined, so a
log without a third topic yields the string "0xundefined" rather than
null. -/
def clankerDeployerAddress (topics : List String) : String :=
  jsToLower ("0x" ++ (match topics.get? 2 with
    | some t => strTakeRight t 40
    | none => "undefined"))

/-- The deployer address computed by `handleDopplerTokenCreatedLog`:
an explicit ternary on the truthiness of the raw creator topic yields
null when that topic is absent or the empty string (the only falsy
string). -/
def dopplerDeployerAddress (topics : List String) : Option String :=
  match topics.get? 2 with
  | some t => if t = "" then none else some (jsToLower ("0x" ++ strTakeRight t 40))
  | none => none

/-- Shared first-true-string coalescing: the JS logical-or of an
optional string expression and a default. -/
def optOr (o : Option String) (dflt : String) : String :=
  match o with
  | some s => if s = "" then dflt else s
  | none => dflt

/-- The JS logical-or of an optional string and null: empty strings
collapse to none. -/
def truthyOpt (o : Option String) : Option String :=
  match o with
  | some s => if s = "" then none else some s
  | none => none

/-- PATH B of `handleClankerTokenCreatedLog`: wait for the indexer,
require an extracted handle on the watchlist, learn the wallet mapping
when a deployer address is present, then alert. -/
def clankerPathB (st : Store) (fr : FetchRun) (deployerAddress : String)
    (lookups : List String) : RunResult :=
  match fr.result with
  | none =>
    { store := st, walletLookups := lookups
      fetchSleepMs := fr.sleepMs, fetchAttempts := fr.attempts }
  | some token =>
    match token.xHandle with
    | none =>
      { store := st, walletLookups := lookups
        fetchSleepMs := fr.sleepMs, fetchAttempts := fr.attempts }
    | some xh =>
      if isHandleWatched st xh then
        let st1 := if deployerAddress = "" then st
          else saveWalletMapping st xh deployerAddress "Learned (Clanker)"
        let writes : List WalletWrite := if deployerAddress = "" then []
          else [{ handle := xh, wallet := deployerAddress, source := "Learned (Clanker)" }]
        { store := st1
          alerts := [{ name := token.name, symbol := token.symbol
                       contractAddress := token.contractAddress
                       xHandle := xh, platform := token.platform
                       txHash := token.txHash, clankerUrl := none
                       source := AlertSource.indexer }]
          walletWrites := writes
          walletLookups := lookups
          fetchSleepMs := fr.sleepMs, fetchAttempts := fr.attempts }
      else
        { store := st, walletLookups := lookups
          fetchSleepMs := fr.sleepMs, fetchAttempts := fr.attempts }

/-- `handleClankerTokenCreatedLog` from src/chain/listener.ts, with
the Clanker metadata fetch driven by the oracle `trace` of its
backing-call outcomes.  A falsy token topic (absent, or the empty
string) drops the log; PATH A is the wallet-cache fast path (the
fetched metadata is used only for name, symbol and platform, never
for the handle); PATH B is the indexer path. -/
def handleClankerTokenCreatedLog (st : Store) (trace : List FetchOutcome)
    (log : ChainLog) : RunResult :=
  match log.topics.get? 1 with
  | none => { store := st }
  | some rawAddress =>
    if rawAddress = "" then { store := st }
    else
    let contractAddress := "0x" ++ strTakeRight rawAddress 40
    let deployerAddress := clankerDeployerAddress log.topics
    let fr := fetchClankerToken contractAddress trace
    if deployerAddress = "" then
      clankerPathB st fr deployerAddress []
    else
      match getHandleByWallet st deployerAddress with
      | some cachedHandle =>
        { store := st
          alerts := [{ name := optOr (fr.result.map ClankerToken.name) "Unknown"
                       symbol := optOr (fr.result.map ClankerToken.symbol) "UNKNOWN"
                       contractAddress := contractAddress
                       xHandle := cachedHandle
                       platform := optOr (fr.result.map ClankerToken.platform) "via Clanker"
                       txHash := log.transactionHash
                       clankerUrl := none
                       source := AlertSource.walletCache }]
          walletLookups := [deployerAddress]
          fetchSleepMs := fr.sleepMs, fetchAttempts := fr.attempts }
      | none =>
        clankerPathB st fr deployerAddress [deployerAddress]

/-- Normalized Doppler token record (interface DopplerToken of
src/api/doppler.ts).  The handlers only consume the result of the
Doppler fetch, so the record is passed to them as an oracle. -/
structure DopplerToken where
  name : String
  symbol : String
  contractAddress : String
  description : Option String
  creator : Option String
  xHandle : Option String
  image : Option String
deriving DecidableEq

/-- Normalized Bankr overlay record (interface BankrSocial of
src/api/bankr.ts), passed to the Doppler handler as an oracle. -/
structure BankrSocial where
  tokenAddress : String
  xHandle : Option String
  isBankrLaunch : Bool
deriving DecidableEq

/-- The social handle the Doppler PATH B ends up with: the Bankr
overlay handle when truthy, otherwise the truthy Doppler indexer
handle. -/
def dopplerFinalHandle (dt : Option DopplerToken) (bankr : BankrSocial) : Option String :=
  match truthyOpt bankr.xHandle with
  | some hb => some hb
  | none => truthyOpt (dt.bind DopplerToken.xHandle)

/-- The platform label the Doppler PATH B ends up with. -/
def dopplerFinalPlatform (bankr : BankrSocial) : String :=
  match truthyOpt bankr.xHandle with
  | some _ => "Bankr via Doppler"
  | none => "Doppler"

/-- `handleDopplerTokenCreatedLog` from src/chain/listener.ts, with
the Doppler and Bankr fetch results passed as oracles.  A falsy token
topic (absent, or the empty string) drops the log; PATH A is the
wallet-cache fast path; PATH B supplements the Doppler indexer record
with the Bankr social overlay, requires a watchlisted handle, learns
the wallet mapping when a creator address is present, then alerts. -/
def handleDopplerTokenCreatedLog (st : Store) (dt : Option DopplerToken)
    (bankr : BankrSocial) (log : ChainLog) : RunResult :=
  match log.topics.get? 1 with
  | none => { store := st }
  | some rawAddress =>
    if rawAddress = "" then { store := st }
    else
    let contractAddress := "0x" ++ strTakeRight rawAddress 40
    let deployerAddress := dopplerDeployerAddress log.topics
    let durl := "https://app.doppler.lol/token/" ++ contractAddress
    let lookups : List String := match deployerAddress with
      | some d => [d]
      | none => []
    let fastHit : Option String := match deployerAddress with
      | some d => getHandleByWallet st d
      | none => none
    match fastHit with
    | some cachedHandle =>
      { store := st
        alerts := [{ name := optOr (dt.map DopplerToken.name) "Unknown"
                     symbol := optOr (dt.map DopplerToken.symbol) "UNKNOWN"
                     contractAddress := contractAddress
                     xHandle := cachedHandle
                     platform := "Doppler"
                     txHash := log.transactionHash
                     clankerUrl := some durl
                     source := AlertSource.walletCache }]
        walletLookups := lookups }
    | none =>
      match dopplerFinalHandle dt bankr with
      | none => { store := st, walletLookups := lookups }
      | some xh =>
        if isHandleWatched st xh then
          let st1 := match deployerAddress with
            | some d => saveWalletMapping st xh d "Learned (Doppler)"
            | none => st
          let writes : List WalletWrite := match deployerAddress with
            | some d => [{ handle := xh, wallet := d, source := "Learned (Doppler)" }]
            | none => []
          { store := st1
            alerts := [{ name := optOr (dt.map DopplerToken.name) "Unknown"
                         symbol := optOr (dt.map DopplerToken.symbol) "UNKNOWN"
                         contractAddress := contractAddress
                         xHandle := xh
                         platform := dopplerFinalPlatform bankr
                         txHash := log.transactionHash
                         clankerUrl := some durl
                         source := AlertSource.indexer }]
            walletWrites := writes
            walletLookups := lookups }
        else
          { store := st, walletLookups := lookups }

/-- Supervisor reconnect state: whether a reconnect timer is pending
(the nullable reconnectTimer handle of listener.ts) and how many
reconnect attempts have executed. -/
structure SupervisorState where
  reconnectTimer : Bool
  reconnectAttempts : Nat
deriving DecidableEq

/-- `scheduleReconnect` from src/chain/listener.ts: a no-op when a
reconnect timer is already pending, otherwise arm the timer. -/
def scheduleReconnect (s : SupervisorState) : SupervisorState :=
  if s.reconnectTimer then s else { s with reconnectTimer := true }

/-- The timer callback of `scheduleReconnect`: clear the pending
timer, perform one reconnect attempt, and on failure re-arm via
`scheduleReconnect`. -/
def fireReconnectTimer (s : SupervisorState) (succeeds : Bool) : SupervisorState :=
  if s.reconnectTimer then
    let s1 : SupervisorState :=
      { reconnectTimer := false, reconnectAttempts := s.reconnectAttempts + 1 }
    if succeeds then s1 else scheduleReconnect s1
  else s

/-! ### Helper lemmas about lowercasing and normalization -/

theorem lowerTable_fixed : ∀ p ∈ lowerTable, lowerChar p.2 = p.2 := by decide

theorem lowerTable_lower : ∀ p ∈ lowerTable, isLowerHandleChar p.2 = true := by decide

theorem lowerTable_covers :
    ∀ n, n < 91 → 65 ≤ n → (lowerTable.find? (fun p => p.1 == n)).isSome = true := by decide

theorem lowerChar_idem (c : Char) : lowerChar (lowerChar c) = lowerChar c := by
  unfold lowerChar
  cases hf : lowerTable.find? (fun p => p.1 == c.toNat) with
  | none => rw [hf]
  | some p =>
    have hp : p ∈ lowerTable := List.mem_of_find?_eq_some hf
    have := lowerTable_fixed p hp
    unfold lowerChar at this
    exact this

theorem lowerChar_handle (c : Char) (h : isHandleChar c = true) :
    isLowerHandleChar (lowerChar c) = true := by
  unfold lowerChar
  cases hf : lowerTable.find? (fun p => p.1 == c.toNat) with
  | none =>
    unfold isHandleChar at h
    unfold isLowerHandleChar
    simp only [Bool.or_eq_true, Bool.and_eq_true, decide_eq_true_eq, beq_iff_eq] at h ⊢
    have hnotup : ¬(65 ≤ c.toNat ∧ c.toNat ≤ 90) := by
      intro hc
      have hcov := lowerTable_covers c.toNat (by omega) (by omega)
      rw [hf] at hcov
      simp at hcov
    omega
  | some p =>
    have hp : p ∈ lowerTable := List.mem_of_find?_eq_some hf
    exact lowerTable_lower p hp

theorem jsToLower_idem (s : String) : jsToLower (jsToLower s) = jsToLower s := by
  unfold jsToLower
  rw [String.ext_iff]
  simp [List.map_map, Function.comp_def, lowerChar_idem]

theorem jsToLower_data (s : String) : (jsToLower s).data = s.data.map lowerChar := rfl

theorem jsToLower_ne_empty (s : String) (h : s.data ≠ []) : jsToLower s ≠ "" := by
  intro hc
  rw [String.ext_iff] at hc
  rw [jsToLower_data] at hc
  simp at hc
  exact h hc

theorem normalizeHandleField_some (s h : String) (hn : normalizeHandleField s = some h) :
    h ≠ "" ∧ jsToLower h = h := by
  unfold normalizeHandleField at hn
  by_cases h0 : s = ""
  · simp [h0] at hn
  · simp only [h0, if_false] at hn
    by_cases h1 : jsTrim (stripLeadingAt s) = ""
    · simp [h1] at hn
    · simp only [h1, if_false, Option.some.injEq] at hn
      subst hn
      constructor
      · apply jsToLower_ne_empty
        intro hd
        exact h1 (String.ext hd)
      · exact jsToLower_idem _

/-! ### Helper lemmas about the URL scan -/

/-- Well-formedness of a handle as produced by the URL scan: 1 to 50
characters, all lowercase handle characters. -/
def wellFormedLower (h : String) : Bool :=
  (1 ≤ h.data.length && h.data.length ≤ 50) && h.data.all isLowerHandleChar

theorem urlMatchAt_some (s cap : List Char) (h : urlMatchAt s = some cap) :
    cap ≠ [] ∧ cap.length ≤ 50 ∧ ∀ c ∈ cap, isHandleChar c = true := by
  unfold urlMatchAt at h
  have hcap : ∀ rest : List Char,
      (if ((rest.takeWhile isHandleChar).take 50).isEmpty then none
       else some ((rest.takeWhile isHandleChar).take 50)) = some cap →
      cap ≠ [] ∧ cap.length ≤ 50 ∧ ∀ c ∈ cap, isHandleChar c = true := by
    intro rest hr
    by_cases he : ((rest.takeWhile isHandleChar).take 50).isEmpty = true
    · rw [if_pos he] at hr
      cases hr
    · rw [if_neg he] at hr
      cases hr
      refine ⟨by simp only [List.isEmpty_eq_true] at he; exact he, ?_, ?_⟩
      · rw [List.length_take]
        exact Nat.min_le_left 50 (rest.takeWhile isHandleChar).length
      · intro c hc
        exact List.mem_takeWhile_imp (List.mem_of_mem_take hc)
  cases h1 : matchCI "twitter.com/".data s with
  | some rest =>
    rw [h1] at h
    exact hcap rest h
  | none =>
    rw [h1] at h
    cases h2 : matchCI "x.com/".data s with
    | some rest =>
      rw [h2] at h
      exact hcap rest h
    | none => rw [h2] at h; exact absurd h (by simp)

theorem scanUrl_some : ∀ (l cap : List Char), scanUrl l = some cap →
    cap ≠ [] ∧ cap.length ≤ 50 ∧ ∀ c ∈ cap, isHandleChar c = true
  | [], cap, h => by simp [scanUrl] at h
  | c :: cs, cap, h => by
    unfold scanUrl at h
    cases h1 : urlMatchAt (c :: cs) with
    | some cap2 =>
      rw [h1] at h
      cases h
      exact urlMatchAt_some _ _ h1
    | none =>
      rw [h1] at h
      exact scanUrl_some cs cap h

theorem urlHit_some (s h : String) (hu : urlHit s = some h) :
    h ≠ "" ∧ jsToLower h = h ∧ wellFormedLower h = true := by
  unfold urlHit at hu
  cases hs : scanUrl s.data with
  | none => rw [hs] at hu; exact absurd hu (by simp)
  | some cap =>
    rw [hs] at hu
    simp only at hu
    by_cases hi : String.mk (cap.map lowerChar) = "i"
    · simp [hi] at hu
    · simp only [hi, if_false, Option.some.injEq] at hu
      subst hu
      obtain ⟨hne, hlen, hall⟩ := scanUrl_some s.data cap hs
      refine ⟨?_, ?_, ?_⟩
      · intro hc
        rw [String.ext_iff] at hc
        simp at hc
        exact hne hc
      · rw [String.ext_iff]
        simp [jsToLower_data, List.map_map, Function.comp_def, lowerChar_idem]
      · unfold wellFormedLower
        simp only [Bool.and_eq_true, decide_eq_true_eq, List.all_eq_true]
        refine ⟨⟨?_, ?_⟩, ?_⟩
        · have : cap.length ≠ 0 := fun h0 => hne (List.eq_nil_of_length_eq_zero h0)
          simpa using Nat.one_le_iff_ne_zero.mpr (by simpa using this)
        · simpa using hlen
        · intro c hc
          simp only [List.mem_map] at hc
          obtain ⟨c0, hc0, rfl⟩ := hc
          exact lowerChar_handle c0 (hall c0 hc0)

theorem urlStep_some : ∀ (fields : JFields) (h : String), urlStep fields = some h →
    h ≠ "" ∧ jsToLower h = h ∧ wellFormedLower h = true
  | JFields.nil, h, hy => by simp [urlStep] at hy
  | JFields.cons k (JVal.str s) rest, h, hy => by
    unfold urlStep at hy
    cases hu : urlHit s with
    | some h2 =>
      rw [hu] at hy
      cases hy
      exact urlHit_some s h hu
    | none =>
      rw [hu] at hy
      exact urlStep_some rest h hy
  | JFields.cons k (JVal.obj o) rest, h, hy => urlStep_some rest h hy
  | JFields.cons k JVal.nullv rest, h, hy => urlStep_some rest h hy
  | JFields.cons k JVal.other rest, h, hy => urlStep_some rest h hy

theorem checkPriority_some (fields : JFields) (h : String)
    (hc : checkPriority fields = some h) : h ≠ "" ∧ jsToLower h = h := by
  unfold checkPriority at hc
  obtain ⟨f, _, hf⟩ := List.exists_of_findSome?_eq_some hc
  cases hj : jget fields f with
  | none => rw [hj] at hf; exact absurd hf (by simp)
  | some w =>
    rw [hj] at hf
    cases w with
    | str s => exact normalizeHandleField_some s h hf
    | obj o => exact absurd hf (by simp)
    | nullv => exact absurd hf (by simp)
    | other => exact absurd hf (by simp)

/-- Every handle `extractXHandle` can return is non-empty and fixed
under lowercasing, whatever the fuel. -/
theorem extractAux_some_shape : ∀ (fuel : Nat) (v : JVal) (h : String),
    extractAux fuel v = some h → h ≠ "" ∧ jsToLower h = h := by
  intro fuel
  induction fuel with
  | zero => intro v h hc; simp [extractAux] at hc
  | succ n ih =>
    intro v h hc
    cases v with
    | str s => simp [extractAux] at hc
    | nullv => simp [extractAux] at hc
    | other => simp [extractAux] at hc
    | obj fields =>
      rw [extractAux_succ_obj] at hc
      cases hp : checkPriority fields with
      | some h2 =>
        rw [hp] at hc
        cases hc
        exact checkPriority_some fields h hp
      | none =>
        rw [hp] at hc
        cases hctx : ctxStep n fields with
        | some h2 =>
          rw [hctx] at hc
          cases hc
          unfold ctxStep at hctx
          obtain ⟨f, _, hf⟩ := List.exists_of_findSome?_eq_some hctx
          cases hj : jget fields f with
          | none => rw [hj] at hf; exact absurd hf (by simp)
          | some w =>
            rw [hj] at hf
            cases w with
            | str s => exact absurd hf (by simp)
            | obj nested => exact ih _ _ hf
            | nullv => exact absurd hf (by simp)
            | other => exact absurd hf (by simp)
        | none =>
          rw [hctx] at hc
          exact (urlStep_some fields h hc).imp id (fun p => p.1)

/-! ### Equivalence of the code extraction with the amended reference -/

theorem checkPriority_bindForm (fields : JFields) :
    priorityFields.findSome? (fun f =>
      (jget fields f).bind (fun w =>
        match w with
        | JVal.str s => normalizeHandleField s
        | _ => none)) = checkPriority fields := by
  unfold checkPriority
  congr 1
  funext f
  cases jget fields f with
  | none => rfl
  | some w => cases w <;> rfl

theorem ctxFindSome_bindForm (n : Nat)
    (ih : ∀ v, extractAux n v = extractRefAux n v) (fields : JFields) :
    contextFields.findSome? (fun f =>
      (jget fields f).bind (fun w =>
        match w with
        | JVal.obj nested => extractRefAux n (JVal.obj nested)
        | _ => none)) =
    contextFields.findSome? (fun f =>
      match jget fields f with
      | some (JVal.obj nested) => extractAux n (JVal.obj nested)
      | _ => none) := by
  congr 1
  funext f
  cases jget fields f with
  | none => rfl
  | some w =>
    cases w with
    | str s => rfl
    | obj nested => exact (ih (JVal.obj nested)).symm
    | nullv => rfl
    | other => rfl

theorem extractAux_eq_refAux : ∀ (fuel : Nat) (v : JVal),
    extractAux fuel v = extractRefAux fuel v := by
  intro fuel
  induction fuel with
  | zero => intro v; rfl
  | succ n ih =>
    intro v
    cases v with
    | str s => rfl
    | nullv => rfl
    | other => rfl
    | obj fields =>
      rw [extractAux_succ_obj]
      unfold extractRefAux
      rw [checkPriority_bindForm fields, ctxFindSome_bindForm n ih fields]
      unfold ctxStep
      cases checkPriority fields with
      | some h => simp
      | none =>
        cases hA : contextFields.findSome? (fun f =>
            match jget fields f with
            | some (JVal.obj nested) => extractAux n (JVal.obj nested)
            | _ => none) with
        | some h => simp [hA]
        | none => simp [hA]

/-! ### The reserved "i" capture suppresses extraction -/

/-- Every string-valued field of the object either has no embedded URL
match or its first capture lowercases to the reserved literal "i". -/
def urlCapturesOnlyI : JFields → Bool
  | JFields.nil => true
  | JFields.cons _ (JVal.str s) rest =>
    (match scanUrl s.data with
     | none => true
     | some cap => String.mk (cap.map lowerChar) == "i") && urlCapturesOnlyI rest
  | JFields.cons _ _ rest => urlCapturesOnlyI rest

theorem urlHit_none_of_onlyI (s : String)
    (hp : (match scanUrl s.data with
           | none => true
           | some cap => String.mk (cap.map lowerChar) == "i") = true) :
    urlHit s = none := by
  unfold urlHit
  cases hs : scanUrl s.data with
  | none => rfl
  | some cap =>
    rw [hs] at hp
    have heq : String.mk (cap.map lowerChar) = "i" := by simpa using hp
    simp [heq]

theorem urlStep_none_of_onlyI : ∀ fields, urlCapturesOnlyI fields = true →
    urlStep fields = none
  | JFields.nil, _ => rfl
  | JFields.cons k (JVal.str s) rest, hp => by
    unfold urlCapturesOnlyI at hp
    rw [Bool.and_eq_true] at hp
    unfold urlStep
    rw [urlHit_none_of_onlyI s hp.1]
    exact urlStep_none_of_onlyI rest hp.2
  | JFields.cons k (JVal.obj o) rest, hp => by
    unfold urlCapturesOnlyI at hp
    unfold urlStep
    exact urlStep_none_of_onlyI rest hp
  | JFields.cons k JVal.nullv rest, hp => by
    unfold urlCapturesOnlyI at hp
    unfold urlStep
    exact urlStep_none_of_onlyI rest hp
  | JFields.cons k JVal.other rest, hp => by
    unfold urlCapturesOnlyI at hp
    unfold urlStep
    exact urlStep_none_of_onlyI rest hp

/-! ### Claim theorems C4, C8, C9 -/

/-- Claim C4, counterexample: the extraction does not follow the claim
as literally stated.  On a record whose social_context object carries
an embedded profile URL in a free-text field, the code finds the
handle through the context recursion (which repeats the URL scan, not
only the priority-field check), while the reference following the
claim words returns null. -/
theorem extraction_order_counterexample :
    extractXHandle (JVal.obj (JFields.cons "social_context"
        (JVal.obj (JFields.cons "bio" (JVal.str "see x.com/bob") JFields.nil))
        JFields.nil)) = some "bob" ∧
    extractClaimRef (JVal.obj (JFields.cons "social_context"
        (JVal.obj (JFields.cons "bio" (JVal.str "see x.com/bob") JFields.nil))
        JFields.nil)) = none := by decide

/-- Claim C4, amended: `extractXHandle` returns the first non-empty
normalized top-level priority-field value; failing that it recurses
into the fixed ordered list of context field names depth-first,
repeating the full extraction (priority check, context recursion and
URL scan) inside each and returning the first hit; failing that it
scans string-valued fields for an embedded twitter.com/x.com URL
handle; otherwise it returns null.  Stated as equality with the
reference definition that composes exactly those steps in that
order. -/
theorem extraction_order_amended : ∀ v : JVal, extractXHandle v = extractRef v :=
  fun v => extractAux_eq_refAux (jsize v + 1) v

/-- The well-formedness predicate of claim C8 as stated: 1 to 50
characters drawn from letters, digits and underscore, and already
lowercase. -/
def wellFormedOriginal (h : String) : Bool :=
  ((1 ≤ h.data.length && h.data.length ≤ 50) && h.data.all isHandleChar) &&
  (jsToLower h == h)

/-- Did the extraction bypass the priority and context steps, so that
the result can only come from the URL scan? -/
def urlOnlyShape (v : JVal) : Bool :=
  match v with
  | JVal.obj fields =>
    (checkPriority fields).isNone && (ctxStep (jsize (JVal.obj fields)) fields).isNone
  | _ => true

/-- Claim C8, counterexample: a priority-field value is only stripped
of one leading at-sign, trimmed and lowercased; the code returns
"@bob smith!!" for the record with x_handle "@@Bob Smith!!", which
keeps a leading at-sign, a space and punctuation, violating the
claimed 1-to-50-word-character shape. -/
theorem handle_wellformed_counterexample :
    extractXHandle (JVal.obj (JFields.cons "x_handle"
        (JVal.str "@@Bob Smith!!") JFields.nil)) = some "@bob smith!!" ∧
    wellFormedOriginal "@bob smith!!" = false := by decide

/-- Claim C8, amended: every non-null extracted handle is a non-empty
string fixed under lowercasing; when the handle comes from the URL
scan (no priority or context hit) it is additionally 1 to 50
characters of lowercase letters, digits and underscore.  Handles from
priority fields are only stripped of a single leading at-sign, trimmed
and lowercased, and may contain arbitrary further characters. -/
theorem handle_normalization_amended (v : JVal) (h : String)
    (hx : extractXHandle v = some h) :
    h ≠ "" ∧ jsToLower h = h ∧ (urlOnlyShape v = true → wellFormedLower h = true) := by
  obtain ⟨hne, hlow⟩ := extractAux_some_shape (jsize v + 1) v h hx
  refine ⟨hne, hlow, ?_⟩
  intro hurl
  cases v with
  | str s => exact absurd hx (by simp [extractXHandle, jsize, extractAux])
  | nullv => exact absurd hx (by simp [extractXHandle, jsize, extractAux])
  | other => exact absurd hx (by simp [extractXHandle, jsize, extractAux])
  | obj fields =>
    unfold urlOnlyShape at hurl
    rw [Bool.and_eq_true, Option.isNone_iff_eq_none, Option.isNone_iff_eq_none] at hurl
    unfold extractXHandle at hx
    rw [extractAux_succ_obj] at hx
    simp only [hurl.1, hurl.2] at hx
    exact (urlStep_some fields h hx).2.2

/-- Witness for C8 amended: on a record whose only social datum is an
embedded URL, the theorem yields a non-empty lowercase well-formed
handle. -/
theorem handle_normalization_witness :
    "alice_1" ≠ "" ∧ jsToLower "alice_1" = "alice_1" ∧
    wellFormedLower "alice_1" = true := by
  have H := handle_normalization_amended
    (JVal.obj (JFields.cons "bio" (JVal.str "x.com/Alice_1") JFields.nil))
    "alice_1" (by decide)
  exact ⟨H.1, H.2.1, H.2.2 (by decide)⟩

/-- Claim C9: on a record with no priority or context handle whose
string fields only embed URL captures equal to the reserved literal
"i", the extraction returns null. -/
theorem reserved_segment_null (fields : JFields)
    (h1 : checkPriority fields = none)
    (h2 : ctxStep (jsize (JVal.obj fields)) fields = none)
    (h3 : urlCapturesOnlyI fields = true) :
    extractXHandle (JVal.obj fields) = none := by
  unfold extractXHandle
  rw [extractAux_succ_obj (jsize (JVal.obj fields)) fields]
  simp only [h1, h2]
  exact urlStep_none_of_onlyI fields h3

/-- Witness for C9 on the record of the spec example. -/
theorem reserved_segment_null_witness :
    extractXHandle (JVal.obj (JFields.cons "bio"
        (JVal.str "x.com/i/status/123") JFields.nil)) = none :=
  reserved_segment_null _ (by decide) (by decide) (by decide)

/-! ### Claim theorems C6, C10, C1, C7 -/

theorem clankerFetchLoop_attempts_le : ∀ (r : Nat) (ca : String) (outs : List FetchOutcome),
    (clankerFetchLoop ca r outs).attempts ≤ r := by
  intro r
  induction r with
  | zero => intro ca outs; simp [clankerFetchLoop]
  | succ n ih =>
    intro ca outs
    unfold clankerFetchLoop
    cases outs.headD FetchOutcome.err with
    | ok d => simp
    | err =>
      by_cases h0 : n = 0
      · simp [h0]
      · simp only [h0, if_false]
        exact Nat.succ_le_succ (ih ca outs.tail)
    | empty =>
      by_cases h0 : n = 0
      · simp [h0]
      · simp only [h0, if_false]
        exact Nat.succ_le_succ (ih ca outs.tail)

/-- Claim C6: the Clanker metadata fetch makes at most MAX_RETRIES = 3
attempts with RETRY_DELAY_MS = 2000 milliseconds between consecutive
attempts; when the backing call errors on attempts 1 and 2 and
succeeds on attempt 3 the parsed result is returned after exactly 2
inter-attempt delays; when all 3 attempts fail the resolver returns
null as an ordinary value (no exception escapes the loop). -/
theorem resolver_retry_semantics :
    MAX_RETRIES = 3 ∧ RETRY_DELAY_MS = 2000 ∧
    (∀ (ca : String) (outs : List FetchOutcome),
      (fetchClankerToken ca outs).attempts ≤ MAX_RETRIES) ∧
    (∀ (ca : String) (d : JVal),
      fetchClankerToken ca [FetchOutcome.err, FetchOutcome.err, FetchOutcome.ok d] =
        { result := some (parseClankerToken ca d)
          sleepMs := 2 * RETRY_DELAY_MS, attempts := 3 }) ∧
    (∀ ca : String,
      fetchClankerToken ca [FetchOutcome.err, FetchOutcome.err, FetchOutcome.err] =
        { result := none, sleepMs := 2 * RETRY_DELAY_MS, attempts := 3 }) :=
  ⟨rfl, rfl, fun ca outs => clankerFetchLoop_attempts_le MAX_RETRIES ca outs,
   fun _ _ => rfl, fun _ => rfl⟩

/-- Claim C10: scheduling a reconnect while one is already pending is
a no-op; two schedule requests in succession arm exactly one timer,
and firing it performs exactly one reconnect attempt. -/
theorem reconnect_idempotent :
    (∀ s : SupervisorState, s.reconnectTimer = true → scheduleReconnect s = s) ∧
    (∀ s : SupervisorState, scheduleReconnect (scheduleReconnect s) = scheduleReconnect s) ∧
    (∀ (s : SupervisorState) (b : Bool), s.reconnectTimer = false →
      (fireReconnectTimer (scheduleReconnect (scheduleReconnect s)) b).reconnectAttempts =
        s.reconnectAttempts + 1) := by
  refine ⟨?_, ?_, ?_⟩
  · intro s hs
    simp [scheduleReconnect, hs]
  · intro s
    unfold scheduleReconnect
    by_cases hs : s.reconnectTimer <;> simp [hs]
  · intro s b hs
    simp only [scheduleReconnect, hs, if_false, Bool.false_eq_true]
    cases b <;> simp [fireReconnectTimer, scheduleReconnect]

/-- Witness for C10: one pending-state no-op and one
double-schedule-then-fire run ending with exactly one more attempt. -/
theorem reconnect_idempotent_witness :
    scheduleReconnect { reconnectTimer := true, reconnectAttempts := 0 } =
      { reconnectTimer := true, reconnectAttempts := 0 } ∧
    (fireReconnectTimer (scheduleReconnect (scheduleReconnect
        { reconnectTimer := false, reconnectAttempts := 5 })) false).reconnectAttempts =
      5 + 1 :=
  ⟨reconnect_idempotent.1 _ rfl, reconnect_idempotent.2.2 _ false rfl⟩

/-- Claim C1 evaluated at the failing input: a deployment whose
deployer has a cached WalletMapping for "alice", with an indexer that
errors on every attempt.  The fast-path alert is emitted for the
cached handle from the wallet-cache branch with fallback name and
symbol (best-effort with respect to the metadata, and independent of
any social data of the resolver), but the metadata fetch still
performed all 3 attempts and slept twice before the alert: the
handler awaits the full retry loop instead of skipping retries as its
own comment and the spec describe. -/
theorem fastpath_retry_eval :
    handleClankerTokenCreatedLog
      { watched := ["alice"],
        wallets := [{ handle := "alice", wallet := "0xd1", source := "manual" }] }
      [FetchOutcome.err, FetchOutcome.err, FetchOutcome.err]
      { topics := ["e", "T1", "D1"], transactionHash := "tx1" } =
    { store := { watched := ["alice"],
                 wallets := [{ handle := "alice", wallet := "0xd1", source := "manual" }] }
      alerts := [{ name := "Unknown", symbol := "UNKNOWN", contractAddress := "0xT1",
                   xHandle := "alice", platform := "via Clanker", txHash := "tx1",
                   clankerUrl := none, source := AlertSource.walletCache }]
      walletWrites := [], walletLookups := ["0xd1"]
      fetchSleepMs := 2 * RETRY_DELAY_MS, fetchAttempts := 3 } := by decide

/-- Claim C7 evaluated: on a Clanker log with no third topic the
handler computes the deployer as the string "0xundefined" (the JS
stringification of undefined) and still attempts the wallet-cache
lookup with that malformed address, while the Doppler handler
correctly yields null and skips the lookup; with a creator topic
present both derive the address from the second indexed topic. -/
theorem deployer_decoding_eval :
    clankerDeployerAddress ["e", "TOK"] = "0xundefined" ∧
    (handleClankerTokenCreatedLog { watched := [], wallets := [] } []
      { topics := ["e", "TOK"], transactionHash := "tx" }).walletLookups =
        ["0xundefined"] ∧
    dopplerDeployerAddress ["e", "TOK"] = none ∧
    (handleDopplerTokenCreatedLog { watched := [], wallets := [] } none
      { tokenAddress := "0xTOK", xHandle := none, isBankrLaunch := false }
      { topics := ["e", "TOK"], transactionHash := "tx" }).walletLookups = [] ∧
    dopplerDeployerAddress ["e", "TOK", "CRE"] = some "0xcre" ∧
    (handleDopplerTokenCreatedLog { watched := [], wallets := [] } none
      { tokenAddress := "0xTOK", xHandle := none, isBankrLaunch := false }
      { topics := ["e", "TOK", "CRE"], transactionHash := "tx" }).walletLookups =
        ["0xcre"] := by decide

/-! ### Store and handler path lemmas -/

theorem clankerDeployerAddress_ne_empty (topics : List String) :
    clankerDeployerAddress topics ≠ "" := by
  unfold clankerDeployerAddress
  apply jsToLower_ne_empty
  have h0 : ("0x" : String).data = ['0', 'x'] := rfl
  rw [String.data_append, h0]
  simp

theorem getHandleByWallet_after_save (st : Store) (h addr src : String)
    (hmiss : getHandleByWallet st addr = none) :
    getHandleByWallet (saveWalletMapping st h addr src) addr = some (jsToLower h) := by
  unfold getHandleByWallet at hmiss ⊢
  unfold saveWalletMapping
  have hfind : st.wallets.find? (fun r => r.wallet == jsToLower addr) = none := by
    cases hf : st.wallets.find? (fun r => r.wallet == jsToLower addr) with
    | none => rfl
    | some r => rw [hf] at hmiss; simp at hmiss
  have hany : (st.wallets.any (fun r =>
      r.handle == jsToLower h && r.wallet == jsToLower addr)) = false := by
    rw [List.any_eq_false]
    intro r hr hc
    rw [Bool.and_eq_true] at hc
    exact (List.find?_eq_none.mp hfind r hr) hc.2
  simp only [hany, Bool.false_eq_true, if_false]
  rw [List.find?_append, hfind]
  simp [List.find?]

/-- The PATH B outcome of the Clanker handler on an indexer-path match
with a watched handle. -/
theorem handleClanker_indexer_match (st : Store) (trace : List FetchOutcome)
    (log : ChainLog) (t1 : String) (tok : ClankerToken) (h : String)
    (h1 : log.topics.get? 1 = some t1) (ht1 : t1 ≠ "")
    (hmiss : getHandleByWallet st (clankerDeployerAddress log.topics) = none)
    (hfetch : (fetchClankerToken ("0x" ++ strTakeRight t1 40) trace).result = some tok)
    (hx : tok.xHandle = some h)
    (hw : isHandleWatched st h = true) :
    handleClankerTokenCreatedLog st trace log =
      { store := saveWalletMapping st h (clankerDeployerAddress log.topics)
          "Learned (Clanker)"
        alerts := [{ name := tok.name, symbol := tok.symbol
                     contractAddress := tok.contractAddress
                     xHandle := h, platform := tok.platform, txHash := tok.txHash
                     clankerUrl := none, source := AlertSource.indexer }]
        walletWrites := [{ handle := h, wallet := clankerDeployerAddress log.topics
                           source := "Learned (Clanker)" }]
        walletLookups := [clankerDeployerAddress log.topics]
        fetchSleepMs := (fetchClankerToken ("0x" ++ strTakeRight t1 40) trace).sleepMs
        fetchAttempts := (fetchClankerToken ("0x" ++ strTakeRight t1 40) trace).attempts } := by
  unfold handleClankerTokenCreatedLog
  simp only [h1]
  rw [if_neg ht1]
  rw [if_neg (clankerDeployerAddress_ne_empty log.topics)]
  simp only [hmiss]
  unfold clankerPathB
  simp only [hfetch, hx, hw, if_true]
  rw [if_neg (clankerDeployerAddress_ne_empty log.topics)]
  rw [if_neg (clankerDeployerAddress_ne_empty log.topics)]

/-- The PATH A outcome of the Clanker handler on a wallet-cache
hit. -/
theorem handleClanker_fastpath (st : Store) (trace : List FetchOutcome)
    (log : ChainLog) (t1 ch : String)
    (h1 : log.topics.get? 1 = some t1) (ht1 : t1 ≠ "")
    (hhit : getHandleByWallet st (clankerDeployerAddress log.topics) = some ch) :
    handleClankerTokenCreatedLog st trace log =
      { store := st
        alerts := [{ name := optOr ((fetchClankerToken ("0x" ++ strTakeRight t1 40)
                       trace).result.map ClankerToken.name) "Unknown"
                     symbol := optOr ((fetchClankerToken ("0x" ++ strTakeRight t1 40)
                       trace).result.map ClankerToken.symbol) "UNKNOWN"
                     contractAddress := "0x" ++ strTakeRight t1 40
                     xHandle := ch
                     platform := optOr ((fetchClankerToken ("0x" ++ strTakeRight t1 40)
                       trace).result.map ClankerToken.platform) "via Clanker"
                     txHash := log.transactionHash
                     clankerUrl := none, source := AlertSource.walletCache }]
        walletLookups := [clankerDeployerAddress log.topics]
        fetchSleepMs := (fetchClankerToken ("0x" ++ strTakeRight t1 40) trace).sleepMs
        fetchAttempts := (fetchClankerToken ("0x" ++ strTakeRight t1 40) trace).attempts } := by
  unfold handleClankerTokenCreatedLog
  simp only [h1]
  rw [if_neg ht1]
  rw [if_neg (clankerDeployerAddress_ne_empty log.topics)]
  simp only [hhit]

/-! ### Claim theorems C2, C3, C5 -/

/-- Claim C2, counterexample: the single wallet-mapping upsert of an
indexer-path match carries the source string "Learned (Clanker)", not
the claimed tag "learned". -/
theorem learning_source_counterexample :
    (handleClankerTokenCreatedLog { watched := ["alice"], wallets := [] }
        [FetchOutcome.ok (JVal.obj (JFields.cons "x_handle" (JVal.str "alice") JFields.nil))]
        { topics := ["e", "T", "D"], transactionHash := "tx" }).walletWrites.map
        WalletWrite.source = ["Learned (Clanker)"] ∧
    ¬ (("Learned (Clanker)" : String) = "learned") := by decide

/-- The PATH B outcome of the Doppler handler on an indexer-path match
with a watched handle and a present creator address. -/
theorem handleDoppler_indexer_match (st : Store) (dt : Option DopplerToken)
    (bankr : BankrSocial) (log : ChainLog) (t1 d h : String)
    (h1 : log.topics.get? 1 = some t1) (ht1 : t1 ≠ "")
    (hda : dopplerDeployerAddress log.topics = some d)
    (hmiss : getHandleByWallet st d = none)
    (hfh : dopplerFinalHandle dt bankr = some h)
    (hw : isHandleWatched st h = true) :
    handleDopplerTokenCreatedLog st dt bankr log =
      { store := saveWalletMapping st h d "Learned (Doppler)"
        alerts := [{ name := optOr (dt.map DopplerToken.name) "Unknown"
                     symbol := optOr (dt.map DopplerToken.symbol) "UNKNOWN"
                     contractAddress := "0x" ++ strTakeRight t1 40
                     xHandle := h
                     platform := dopplerFinalPlatform bankr
                     txHash := log.transactionHash
                     clankerUrl := some ("https://app.doppler.lol/token/" ++
                       ("0x" ++ strTakeRight t1 40))
                     source := AlertSource.indexer }]
        walletWrites := [{ handle := h, wallet := d, source := "Learned (Doppler)" }]
        walletLookups := [d] } := by
  unfold handleDopplerTokenCreatedLog
  simp only [h1]
  rw [if_neg ht1]
  simp only [hda, hmiss, hfh, hw, if_true]

/-- The PATH A outcome of the Doppler handler on a wallet-cache
hit. -/
theorem handleDoppler_fastpath (st : Store) (dt : Option DopplerToken)
    (bankr : BankrSocial) (log : ChainLog) (t1 d ch : String)
    (h1 : log.topics.get? 1 = some t1) (ht1 : t1 ≠ "")
    (hda : dopplerDeployerAddress log.topics = some d)
    (hhit : getHandleByWallet st d = some ch) :
    handleDopplerTokenCreatedLog st dt bankr log =
      { store := st
        alerts := [{ name := optOr (dt.map DopplerToken.name) "Unknown"
                     symbol := optOr (dt.map DopplerToken.symbol) "UNKNOWN"
                     contractAddress := "0x" ++ strTakeRight t1 40
                     xHandle := ch
                     platform := "Doppler"
                     txHash := log.transactionHash
                     clankerUrl := some ("https://app.doppler.lol/token/" ++
                       ("0x" ++ strTakeRight t1 40))
                     source := AlertSource.walletCache }]
        walletLookups := [d] } := by
  unfold handleDopplerTokenCreatedLog
  simp only [h1]
  rw [if_neg ht1]
  simp only [hda, hhit]

/-- Claim C2, amended: an indexer-path resolution that matches the
watchlist and carries a non-null deployer address performs exactly one
WalletMapping upsert, with source tag "Learned (Clanker)" on the
Clanker path and "Learned (Doppler)" on the Doppler path, mapping the
matched handle to that deployer address; a later deployment event
(with a truthy token topic) from the same address then takes the fast
path, alerting on the cached (lowercased) handle from the wallet-cache
branch for every possible indexer response, so the indexer social data
is never used again. -/
theorem learning_upsert :
    (∀ (st : Store) (trace trace2 : List FetchOutcome) (log log2 : ChainLog)
       (t1 t2 u1 : String) (tok : ClankerToken) (h : String),
      log.topics.get? 1 = some t1 → t1 ≠ "" →
      log.topics.get? 2 = some t2 →
      getHandleByWallet st (clankerDeployerAddress log.topics) = none →
      (fetchClankerToken ("0x" ++ strTakeRight t1 40) trace).result = some tok →
      tok.xHandle = some h →
      isHandleWatched st h = true →
      log2.topics.get? 1 = some u1 → u1 ≠ "" →
      clankerDeployerAddress log2.topics = clankerDeployerAddress log.topics →
      (handleClankerTokenCreatedLog st trace log).walletWrites =
        [{ handle := h, wallet := clankerDeployerAddress log.topics
           source := "Learned (Clanker)" }] ∧
      (handleClankerTokenCreatedLog (handleClankerTokenCreatedLog st trace log).store
          trace2 log2).alerts.map (fun a => (a.xHandle, a.source)) =
        [(jsToLower h, AlertSource.walletCache)]) ∧
    (∀ (st : Store) (dt dt2 : Option DopplerToken) (bankr bankr2 : BankrSocial)
       (log log2 : ChainLog) (t1 u1 d h : String),
      log.topics.get? 1 = some t1 → t1 ≠ "" →
      dopplerDeployerAddress log.topics = some d →
      getHandleByWallet st d = none →
      dopplerFinalHandle dt bankr = some h →
      isHandleWatched st h = true →
      log2.topics.get? 1 = some u1 → u1 ≠ "" →
      dopplerDeployerAddress log2.topics = some d →
      (handleDopplerTokenCreatedLog st dt bankr log).walletWrites =
        [{ handle := h, wallet := d, source := "Learned (Doppler)" }] ∧
      (handleDopplerTokenCreatedLog (handleDopplerTokenCreatedLog st dt bankr log).store
          dt2 bankr2 log2).alerts.map (fun a => (a.xHandle, a.source)) =
        [(jsToLower h, AlertSource.walletCache)]) := by
  constructor
  · intro st trace trace2 log log2 t1 t2 u1 tok h
      h1 ht1 _ht2 hmiss hfetch hx hw h1b hu1 hsame
    have hrun1 := handleClanker_indexer_match st trace log t1 tok h h1 ht1 hmiss hfetch hx hw
    refine ⟨by rw [hrun1], ?_⟩
    rw [hrun1]
    have hlook : getHandleByWallet
        (saveWalletMapping st h (clankerDeployerAddress log.topics) "Learned (Clanker)")
        (clankerDeployerAddress log2.topics) = some (jsToLower h) := by
      rw [hsame]
      exact getHandleByWallet_after_save st h (clankerDeployerAddress log.topics)
        "Learned (Clanker)" hmiss
    rw [handleClanker_fastpath _ trace2 log2 u1 (jsToLower h) h1b hu1 hlook]
    simp
  · intro st dt dt2 bankr bankr2 log log2 t1 u1 d h
      h1 ht1 hda hmiss hfh hw h1b hu1 hsame
    have hrun1 := handleDoppler_indexer_match st dt bankr log t1 d h h1 ht1 hda hmiss hfh hw
    refine ⟨by rw [hrun1], ?_⟩
    rw [hrun1]
    have hlook : getHandleByWallet
        (saveWalletMapping st h d "Learned (Doppler)") d = some (jsToLower h) :=
      getHandleByWallet_after_save st h d "Learned (Doppler)" hmiss
    rw [handleDoppler_fastpath _ dt2 bankr2 log2 u1 d (jsToLower h) h1b hu1 hsame hlook]
    simp

/-- Witness for C2 amended: on both protocol paths, a concrete
watchlisted record learned from a first event makes a second event
from the same wallet alert through the cache. -/
theorem learning_upsert_witness :
    ((handleClankerTokenCreatedLog { watched := ["alice"], wallets := [] }
        [FetchOutcome.ok (JVal.obj (JFields.cons "x_handle" (JVal.str "alice") JFields.nil))]
        { topics := ["e", "T", "D"], transactionHash := "tx" }).walletWrites =
      [{ handle := "alice", wallet := "0xd", source := "Learned (Clanker)" }] ∧
    (handleClankerTokenCreatedLog
        (handleClankerTokenCreatedLog { watched := ["alice"], wallets := [] }
          [FetchOutcome.ok (JVal.obj (JFields.cons "x_handle" (JVal.str "alice") JFields.nil))]
          { topics := ["e", "T", "D"], transactionHash := "tx" }).store
        [] { topics := ["e", "T2", "D"], transactionHash := "tx2" }).alerts.map
        (fun a => (a.xHandle, a.source)) = [("alice", AlertSource.walletCache)]) ∧
    ((handleDopplerTokenCreatedLog { watched := ["carol"], wallets := [] } none
        { tokenAddress := "0xT", xHandle := some "carol", isBankrLaunch := true }
        { topics := ["e", "T", "C"], transactionHash := "tx" }).walletWrites =
      [{ handle := "carol", wallet := "0xc", source := "Learned (Doppler)" }] ∧
    (handleDopplerTokenCreatedLog
        (handleDopplerTokenCreatedLog { watched := ["carol"], wallets := [] } none
          { tokenAddress := "0xT", xHandle := some "carol", isBankrLaunch := true }
          { topics := ["e", "T", "C"], transactionHash := "tx" }).store
        none { tokenAddress := "0xT2", xHandle := none, isBankrLaunch := false }
        { topics := ["e", "T2", "C"], transactionHash := "tx2" }).alerts.map
        (fun a => (a.xHandle, a.source)) = [("carol", AlertSource.walletCache)]) := by
  have H1 := learning_upsert.1 { watched := ["alice"], wallets := [] }
    [FetchOutcome.ok (JVal.obj (JFields.cons "x_handle" (JVal.str "alice") JFields.nil))] []
    { topics := ["e", "T", "D"], transactionHash := "tx" }
    { topics := ["e", "T2", "D"], transactionHash := "tx2" }
    "T" "D" "T2"
    { name := "Unknown", symbol := "UNKNOWN", contractAddress := "0xT"
      xHandle := some "alice", platform := "via Clanker", txHash := "" }
    "alice" (by decide) (by decide) (by decide) (by decide) (by decide) (by decide)
    (by decide) (by decide) (by decide) (by decide)
  have H2 := learning_upsert.2 { watched := ["carol"], wallets := [] } none none
    { tokenAddress := "0xT", xHandle := some "carol", isBankrLaunch := true }
    { tokenAddress := "0xT2", xHandle := none, isBankrLaunch := false }
    { topics := ["e", "T", "C"], transactionHash := "tx" }
    { topics := ["e", "T2", "C"], transactionHash := "tx2" }
    "T" "T2" "0xc" "carol"
    (by decide) (by decide) (by decide) (by decide) (by decide) (by decide)
    (by decide) (by decide) (by decide)
  refine ⟨⟨?_, ?_⟩, ?_, ?_⟩
  · rw [H1.1]; decide
  · rw [H1.2]; decide
  · rw [H2.1]
  · rw [H2.2]; decide

/-- Has the Doppler fast path missed (no creator address, or no cached
mapping for it)? -/
def dopplerFastMiss (st : Store) (topics : List String) : Bool :=
  match dopplerDeployerAddress topics with
  | some d => (getHandleByWallet st d).isNone
  | none => true

/-- Claim C3: on a Doppler event resolved on the indexer path where
both the Doppler resolver and the Bankr overlay return truthy handles,
every emitted alert carries the overlay handle and the overlay
platform label. -/
theorem overlay_precedence (st : Store) (dt : DopplerToken) (bankr : BankrSocial)
    (log : ChainLog) (hd hb : String)
    (_hdop : truthyOpt dt.xHandle = some hd)
    (hbk : truthyOpt bankr.xHandle = some hb)
    (hmiss : dopplerFastMiss st log.topics = true) :
    (handleDopplerTokenCreatedLog st (some dt) bankr log).alerts.all
      (fun a => a.xHandle == hb && a.platform == "Bankr via Doppler") = true := by
  unfold handleDopplerTokenCreatedLog
  cases h1 : log.topics.get? 1 with
  | none => simp
  | some raw =>
    simp only []
    by_cases hraw : raw = ""
    · rw [if_pos hraw]
      simp
    · rw [if_neg hraw]
      have hfast : (match dopplerDeployerAddress log.topics with
                    | some d => getHandleByWallet st d
                    | none => none) = none := by
        unfold dopplerFastMiss at hmiss
        cases hda : dopplerDeployerAddress log.topics with
        | none => rfl
        | some d =>
          rw [hda] at hmiss
          simpa using hmiss
      rw [hfast]
      have hfh : dopplerFinalHandle (some dt) bankr = some hb := by
        unfold dopplerFinalHandle
        rw [hbk]
      have hfp : dopplerFinalPlatform bankr = "Bankr via Doppler" := by
        unfold dopplerFinalPlatform
        rw [hbk]
      rw [hfh]
      by_cases hwatch : isHandleWatched st hb = true
      · simp only [hwatch, if_true]
        simp [hfp]
      · rw [Bool.not_eq_true] at hwatch
        simp only [hwatch, Bool.false_eq_true, if_false]
        simp

/-- Witness for C3: both resolvers report a handle and the emitted
alert carries the Bankr one with the overlay label. -/
theorem overlay_precedence_witness :
    (handleDopplerTokenCreatedLog { watched := ["carol"], wallets := [] }
        (some { name := "N", symbol := "S", contractAddress := "0xT", description := none
                creator := none, xHandle := some "dave", image := none })
        { tokenAddress := "0xT", xHandle := some "carol", isBankrLaunch := true }
        { topics := ["e", "T", "C"], transactionHash := "tx" }).alerts.all
      (fun a => a.xHandle == "carol" && a.platform == "Bankr via Doppler") = true :=
  overlay_precedence _ _ _ _ "dave" "carol" (by decide) (by decide) (by decide)

/-- Has the Clanker fast path missed the cache? -/
def clankerFastMiss (st : Store) (topics : List String) : Bool :=
  (getHandleByWallet st (clankerDeployerAddress topics)).isNone

/-- The Clanker indexer path yields no alertable handle: the fetched
token has no extractable handle, or its handle is not watched. -/
def clankerSocialMiss (st : Store) (ca : String) (trace : List FetchOutcome) : Bool :=
  match (fetchClankerToken ca trace).result with
  | some tok =>
    match tok.xHandle with
    | some h => !(isHandleWatched st h)
    | none => true
  | none => false

/-- The C5 premise for the Clanker handler, at the contract address the
handler derives from the log. -/
def clankerSuppressedPremise (st : Store) (trace : List FetchOutcome)
    (topics : List String) : Bool :=
  match topics.get? 1 with
  | some t1 => clankerSocialMiss st ("0x" ++ strTakeRight t1 40) trace
  | none => true

/-- The Doppler indexer path yields no alertable handle. -/
def dopplerSocialMiss (st : Store) (dt : Option DopplerToken) (bankr : BankrSocial) : Bool :=
  match dopplerFinalHandle dt bankr with
  | some h => !(isHandleWatched st h)
  | none => true

theorem clankerPathB_fetchFail (st : Store) (fr : FetchRun) (dep : String)
    (lookups : List String) (h : fr.result = none) :
    clankerPathB st fr dep lookups =
      { store := st, walletLookups := lookups
        fetchSleepMs := fr.sleepMs, fetchAttempts := fr.attempts } := by
  unfold clankerPathB
  simp only [h]

theorem clankerPathB_noHandle (st : Store) (fr : FetchRun) (dep : String)
    (lookups : List String) (tok : ClankerToken)
    (h : fr.result = some tok) (hx : tok.xHandle = none) :
    clankerPathB st fr dep lookups =
      { store := st, walletLookups := lookups
        fetchSleepMs := fr.sleepMs, fetchAttempts := fr.attempts } := by
  unfold clankerPathB
  simp only [h, hx]

theorem clankerPathB_unwatched (st : Store) (fr : FetchRun) (dep : String)
    (lookups : List String) (tok : ClankerToken) (hh : String)
    (h : fr.result = some tok) (hx : tok.xHandle = some hh)
    (hw : isHandleWatched st hh = false) :
    clankerPathB st fr dep lookups =
      { store := st, walletLookups := lookups
        fetchSleepMs := fr.sleepMs, fetchAttempts := fr.attempts } := by
  unfold clankerPathB
  simp only [h, hx, hw, Bool.false_eq_true, if_false]

theorem clankerSuppressedPremise_some (st : Store) (trace : List FetchOutcome)
    (topics : List String) (t1 : String) (h : topics.get? 1 = some t1) :
    clankerSuppressedPremise st trace topics =
      clankerSocialMiss st ("0x" ++ strTakeRight t1 40) trace := by
  unfold clankerSuppressedPremise
  rw [h]

/-- Claim C5: when the resolved token has no extractable handle or the
extracted handle is off the watchlist (and the wallet cache did not
hit), no alert is sent and no Store write occurs, on both handlers. -/
theorem suppression_effect_free :
    (∀ (st : Store) (trace : List FetchOutcome) (log : ChainLog),
      clankerFastMiss st log.topics = true →
      clankerSuppressedPremise st trace log.topics = true →
      (handleClankerTokenCreatedLog st trace log).alerts = [] ∧
      (handleClankerTokenCreatedLog st trace log).store = st ∧
      (handleClankerTokenCreatedLog st trace log).walletWrites = []) ∧
    (∀ (st : Store) (dt : Option DopplerToken) (bankr : BankrSocial) (log : ChainLog),
      dopplerFastMiss st log.topics = true →
      dopplerSocialMiss st dt bankr = true →
      (handleDopplerTokenCreatedLog st dt bankr log).alerts = [] ∧
      (handleDopplerTokenCreatedLog st dt bankr log).store = st ∧
      (handleDopplerTokenCreatedLog st dt bankr log).walletWrites = []) := by
  constructor
  · intro st trace log hfm hsp
    unfold handleClankerTokenCreatedLog
    cases h1 : log.topics.get? 1 with
    | none => exact ⟨rfl, rfl, rfl⟩
    | some t1 =>
      simp only []
      by_cases ht1 : t1 = ""
      · rw [if_pos ht1]
        exact ⟨rfl, rfl, rfl⟩
      rw [if_neg ht1]
      rw [if_neg (clankerDeployerAddress_ne_empty log.topics)]
      have hmiss : getHandleByWallet st (clankerDeployerAddress log.topics) = none := by
        unfold clankerFastMiss at hfm
        simpa using hfm
      simp only [hmiss]
      rw [clankerSuppressedPremise_some st trace log.topics t1 h1] at hsp
      unfold clankerSocialMiss at hsp
      cases hres : (fetchClankerToken ("0x" ++ strTakeRight t1 40) trace).result with
      | none =>
        rw [hres] at hsp
        have hfalse : (false : Bool) = true := hsp
        simp at hfalse
      | some tok =>
        rw [hres] at hsp
        have hsp2 : (match tok.xHandle with
                     | some h => !isHandleWatched st h
                     | none => true) = true := hsp
        cases hxh : tok.xHandle with
        | none =>
          rw [clankerPathB_noHandle st _ _ _ tok hres hxh]
          exact ⟨rfl, rfl, rfl⟩
        | some h =>
          rw [hxh] at hsp2
          have hsp3 : (!isHandleWatched st h) = true := hsp2
          have hnw : isHandleWatched st h = false := by simpa using hsp3
          rw [clankerPathB_unwatched st _ _ _ tok h hres hxh hnw]
          exact ⟨rfl, rfl, rfl⟩
  · intro st dt bankr log hfm hsm
    unfold handleDopplerTokenCreatedLog
    cases h1 : log.topics.get? 1 with
    | none => exact ⟨rfl, rfl, rfl⟩
    | some raw =>
      simp only []
      by_cases hraw : raw = ""
      · rw [if_pos hraw]
        exact ⟨rfl, rfl, rfl⟩
      rw [if_neg hraw]
      have hfast : (match dopplerDeployerAddress log.topics with
                    | some d => getHandleByWallet st d
                    | none => none) = none := by
        unfold dopplerFastMiss at hfm
        cases hda : dopplerDeployerAddress log.topics with
        | none => rfl
        | some d =>
          rw [hda] at hfm
          simpa using hfm
      rw [hfast]
      unfold dopplerSocialMiss at hsm
      cases hfh : dopplerFinalHandle dt bankr with
      | none => exact ⟨rfl, rfl, rfl⟩
      | some h =>
        rw [hfh] at hsm
        have hsm2 : (!isHandleWatched st h) = true := hsm
        have hnw : isHandleWatched st h = false := by simpa using hsm2
        simp [hnw]

/-- Witness for C5: one unwatched Clanker resolution and one unwatched
Doppler resolution, both effect-free. -/
theorem suppression_effect_free_witness :
    ((handleClankerTokenCreatedLog { watched := [], wallets := [] }
        [FetchOutcome.ok (JVal.obj (JFields.cons "x_handle" (JVal.str "bob") JFields.nil))]
        { topics := ["e", "T"], transactionHash := "tx" }).alerts = [] ∧
     (handleClankerTokenCreatedLog { watched := [], wallets := [] }
        [FetchOutcome.ok (JVal.obj (JFields.cons "x_handle" (JVal.str "bob") JFields.nil))]
        { topics := ["e", "T"], transactionHash := "tx" }).store =
          { watched := [], wallets := [] } ∧
     (handleClankerTokenCreatedLog { watched := [], wallets := [] }
        [FetchOutcome.ok (JVal.obj (JFields.cons "x_handle" (JVal.str "bob") JFields.nil))]
        { topics := ["e", "T"], transactionHash := "tx" }).walletWrites = []) ∧
    ((handleDopplerTokenCreatedLog { watched := [], wallets := [] } none
        { tokenAddress := "0xT", xHandle := some "carol", isBankrLaunch := true }
        { topics := ["e", "T", "C"], transactionHash := "tx" }).alerts = [] ∧
     (handleDopplerTokenCreatedLog { watched := [], wallets := [] } none
        { tokenAddress := "0xT", xHandle := some "carol", isBankrLaunch := true }
        { topics := ["e", "T", "C"], transactionHash := "tx" }).store =
          { watched := [], wallets := [] } ∧
     (handleDopplerTokenCreatedLog { watched := [], wallets := [] } none
        { tokenAddress := "0xT", xHandle := some "carol", isBankrLaunch := true }
        { topics := ["e", "T", "C"], transactionHash := "tx" }).walletWrites = []) :=
  ⟨suppression_effect_free.1 _ _ _ (by decide) (by decide),
   suppression_effect_free.2 _ _ _ _ (by decide) (by decide)⟩

end Kraven
